import Mathlib

set_option maxRecDepth 8000

/-!
Verification development for the etl2pcapng conversion core (src/main.c).

The C program converts ndiscap ETL packet-capture events to pcapng. We give
a shallow embedding of the parts of `main.c` the specification talks about:

* the interface registry and its canonical ordering (`InterfaceCompareFn`,
  the sort-and-index part of `WriteInterfaces`, modelled by
  `finalizeInterfaces`; `qsort` with a comparator that is a strict total
  order on interface lists with pairwise-distinct `LowerIfIndex` — the only
  lists the registry produces — is modelled by a structural sort with the
  `≤` relation derived from the comparator, under which the sorted result
  is unique);
* the pass-2 part of `EventCallback`, modelled by the step function
  `pass2Step` over `Pass2State` (the globals `AuxFragBuf`/`AuxFragBufOffset`,
  `PacketMetadata`, `AddMetadata`). The byte buffer is modelled as the list
  of its first `AuxFragBufOffset` bytes: every byte the program ever emits
  in a packet is written by that packet's own fragments, so the bytes past
  the offset never reach the output;
* the timestamp conversion and the comment formatting of
  `CombineMetadataWithPacket` and of the PID-only branch.

Bytes are modelled as `Nat` (the program only ever stores 8-bit values);
keyword masks use `Nat` bitwise-and, matching the C `&` tests.
-/

/-! ## Constants from main.c -/

def MAX_PACKET_SIZE : Nat := 65535

def KW_MEDIA_WIRELESS_WAN : Nat := 0x200
def KW_MEDIA_NATIVE_802_11 : Nat := 0x10000
def KW_PACKET_START : Nat := 0x40000000
def KW_PACKET_END : Nat := 0x80000000
def KW_SEND : Nat := 0x100000000
def KW_RECEIVE : Nat := 0x200000000

def tidPacketFragment : Nat := 1001
def tidPacketMetadata : Nat := 1002
def tidVMSwitchPacketFragment : Nat := 1003

/-- Size in bytes of `DOT11_EXTSTA_RECV_CONTEXT` with `#pragma pack(push,8)`
(Header 4, three ULONGs 12, USHORT 2 + pad 2, LONG 4, UCHAR 1 + pad 3,
ULONG 4, pointer 8 (x64), ULONGLONG 8). -/
def sizeof_DOT11_EXTSTA_RECV_CONTEXT : Nat := 48

/-- Table `DOT11_PHY_TYPE_NAMES` from main.c: 11 entries, indices 0..10. -/
def DOT11_PHY_TYPE_NAMES : List String :=
  ["Unknown", "Fhss", "Dsss", "IrBaseband", "802.11a", "802.11b",
   "802.11g", "802.11n", "802.11ac", "802.11ad", "802.11ax"]

/-! ## Interface registry -/

/-- Mirror of `struct INTERFACE` (without the hash-chain pointer). Link
types are kept abstract as numbers; `pcapNgIfIndex` is meaningful only
after finalization. -/
structure Interface where
  lowerIfIndex : Nat
  miniportIfIndex : Nat
  pcapNgIfIndex : Nat
  type : Nat
deriving DecidableEq, Repr

/-- Mirror of `InterfaceCompareFn` from main.c (qsort comparator). -/
def InterfaceCompareFn (a b : Interface) : Int :=
  if a.miniportIfIndex = b.miniportIfIndex then
    if a.miniportIfIndex = a.lowerIfIndex then -1
    else if b.miniportIfIndex = b.lowerIfIndex then 1
    else if a.lowerIfIndex < b.lowerIfIndex then -1
    else if b.lowerIfIndex < a.lowerIfIndex then 1
    else 0
  else if a.miniportIfIndex < b.miniportIfIndex then -1
  else 1

/-- The `≤` relation induced by the comparator, used to model `qsort`. -/
def cmpLe (a b : Interface) : Prop := InterfaceCompareFn a b ≤ 0

instance : DecidableRel cmpLe :=
  fun a b => inferInstanceAs (Decidable (InterfaceCompareFn a b ≤ 0))

/-- The index-assignment loop of `WriteInterfaces`:
`Interface->PcapNgIfIndex = i` in array order, starting from `i`. -/
def assignIndices : Nat → List Interface → List Interface
  | _, [] => []
  | i, x :: xs => { x with pcapNgIfIndex := i } :: assignIndices (i + 1) xs

/-- The sort-and-index part of `WriteInterfaces`: sort the registered
interfaces with `InterfaceCompareFn` and assign `PcapNgIfIndex` 0..n-1 in
that order. The input list stands for the flattened hash table in an
arbitrary order. -/
def finalizeInterfaces (l : List Interface) : List Interface :=
  assignIndices 0 (List.insertionSort cmpLe l)

/-! ## Pass-2 data model -/

/-- The fields of `DOT11_EXTSTA_RECV_CONTEXT` that the comment formatter
reads. `lRSSI` is a signed LONG. -/
structure Dot11Meta where
  uReceiveFlags : Nat
  uPhyId : Nat
  uChCenterFrequency : Nat
  usNumberOfMPDUsReceived : Nat
  lRSSI : Int
  ucDataRate : Nat
deriving DecidableEq, Repr

/-- The all-zero metadata record: `PacketMetadata` after
`memset(&PacketMetadata, 0, ...)` (also its zero-initialized start value). -/
def zeroMeta : Dot11Meta := ⟨0, 0, 0, 0, 0, 0⟩

/-- One decoded trace event as seen by `EventCallback`: header fields plus
the named properties the callback queries. `fragment` is the byte run read
through the `FragmentSize`/`Fragment` properties, so its length plays the
role of `FragLength`. `timeStamp` is in 100ns ticks since 1601. -/
structure Event where
  isNdisCap : Bool
  id : Nat
  keyword : Nat
  lowerIfIndex : Nat
  miniportIfIndex : Nat
  timeStamp : Nat
  processId : Nat
  metadataSize : Nat
  metadata : Dot11Meta
  fragment : List Nat
deriving DecidableEq, Repr

/-- The pass-2 mutable globals: the fragment accumulation buffer (as the
list of its first `AuxFragBufOffset` bytes) and the single metadata slot. -/
structure Pass2State where
  auxFragBuf : List Nat
  packetMetadata : Dot11Meta
  addMetadata : Bool
deriving DecidableEq, Repr

/-- Pass-2 start state: empty buffer, zeroed metadata slot, no pending
metadata. -/
def initialPass2State : Pass2State := ⟨[], zeroMeta, false⟩

/-- One call to `PcapNgWriteEnhancedPacket`, as issued by `EventCallback`:
the payload bytes handed over, the separate declared length argument, the
interface id, direction, the two 32-bit timestamp words, and the comment
(`none` models a comment whose formatting the program has no defined value
for). -/
structure Packet where
  payload : List Nat
  length : Nat
  interfaceId : Nat
  isSend : Bool
  tsHigh : Nat
  tsLow : Nat
  comment : Option String
deriving DecidableEq, Repr

/-! ## Timestamp conversion and comment formatting -/

/-- Line 428 of main.c: `TimeStamp.QuadPart =
(ev->EventHeader.TimeStamp.QuadPart / 10) - 11644473600000000ll`, the
result held in an unsigned 64-bit `QuadPart` (hence the reduction modulo
2^64). The trace timestamp is nonnegative, so C signed division by 10
agrees with `Nat` division. -/
def winTicksToUsec (ticks : Nat) : Nat :=
  ((((ticks / 10 : Nat) : Int) - 11644473600000000) % (2 ^ 64 : Int)).toNat

/-- Reading of an unsigned 32-bit value through printf `%d` (the program
passes the ULONG `ProcessId` to a `%d` conversion). -/
def int32OfUInt32 (n : Nat) : Int :=
  if n % 2 ^ 32 < 2 ^ 31 then ((n % 2 ^ 32 : Nat) : Int)
  else ((n % 2 ^ 32 : Nat) : Int) - 2 ^ 32

/-- Lowercase hex rendering, as printf `%x` produces. -/
def hexString (n : Nat) : String := String.mk (Nat.toDigits 16 n)

/-- The PID-only comment `"PID=%d"` of the no-metadata branch. -/
def pidComment (pid : Nat) : String := "PID=" ++ toString (int32OfUInt32 pid)

/-- The comment built by `CombineMetadataWithPacket` via `StringCchPrintfA`.
The phy-type name is read from `DOT11_PHY_TYPE_NAMES` at index `uPhyId`
with no bounds check in the C code; an out-of-range index reads outside the
table, so the model returns `none` there (no defined value). -/
def metadataComment (m : Dot11Meta) (pid : Nat) : Option String :=
  (DOT11_PHY_TYPE_NAMES.get? m.uPhyId).map fun phy =>
    "Packet Metadata: ReceiveFlags:0x" ++ hexString m.uReceiveFlags ++
    ", PhyType:" ++ phy ++
    ", CenterCh:" ++ toString m.uChCenterFrequency ++
    ", NumMPDUsReceived:" ++ toString m.usNumberOfMPDUsReceived ++
    ", RSSI:" ++ toString m.lRSSI ++
    ", DataRate:" ++ toString m.ucDataRate ++
    ", PID=" ++ toString (int32OfUInt32 pid)

/-- Lines 445-454 of main.c: for a native-802.11 frame, clear the Protected
bit (`0x40`) of buffer byte 1 if it is set. On a buffer holding fewer than
two bytes the C code touches a byte past the accumulated data, which never
reaches any emitted payload, so the model leaves short buffers unchanged. -/
def clearProtectedBit (buf : List Nat) : List Nat :=
  match buf with
  | b0 :: b1 :: rest =>
      if b1 &&& 0x40 ≠ 0 then b0 :: (b1 &&& 0xBF) :: rest else b0 :: b1 :: rest
  | other => other

/-! ## The pass-2 step function (EventCallback with Pass2 = TRUE) -/

/-- The provider/event-id filter at the top of `EventCallback`. -/
def relevantEvent (ev : Event) : Bool :=
  ev.isNdisCap &&
    (ev.id == tidPacketFragment || ev.id == tidPacketMetadata ||
     ev.id == tidVMSwitchPacketFragment)

/-- The packet handed to `PcapNgWriteEnhancedPacket` by the
`KW_PACKET_END` branch of `EventCallback` (lines 443-499 of main.c): the
accumulated bytes plus this event's fragment, the 802.11 Protected-bit
rewrite, the metadata or PID comment, the declared length (which adds
`sizeof(DOT11_EXTSTA_RECV_CONTEXT)` on the metadata path), and the two
32-bit words of the converted timestamp. -/
def emitPacket (s : Pass2State) (ev : Event) (ifIdx : Nat) : Packet :=
  let buf := s.auxFragBuf ++ ev.fragment
  let payload :=
    if (ev.keyword &&& KW_MEDIA_NATIVE_802_11) ≠ 0 then clearProtectedBit buf
    else buf
  let usec := winTicksToUsec ev.timeStamp
  if s.addMetadata then
    { payload := payload,
      length := sizeof_DOT11_EXTSTA_RECV_CONTEXT + buf.length,
      interfaceId := ifIdx,
      isSend := (ev.keyword &&& KW_SEND) != 0,
      tsHigh := usec / 2 ^ 32,
      tsLow := usec % 2 ^ 32,
      comment := metadataComment s.packetMetadata ev.processId }
  else
    { payload := payload,
      length := buf.length,
      interfaceId := ifIdx,
      isSend := (ev.keyword &&& KW_SEND) != 0,
      tsHigh := usec / 2 ^ 32,
      tsLow := usec % 2 ^ 32,
      comment := some (pidComment ev.processId) }

/-- One pass-2 invocation of `EventCallback`. `lookup` maps `LowerIfIndex`
to the interface's `PcapNgIfIndex` (the registry built in pass 1);
`none` as overall result models the fatal `exit(1)` on an unrecognized
interface. Returns the new state and the packets written (0 or 1). -/
def pass2Step (lookup : Nat → Option Nat) (s : Pass2State) (ev : Event) :
    Option (Pass2State × List Packet) :=
  if ¬ relevantEvent ev then some (s, []) else
  match lookup ev.lowerIfIndex with
  | none => none
  | some ifIdx =>
    if ev.id = tidPacketMetadata then
      if ev.metadataSize ≠ sizeof_DOT11_EXTSTA_RECV_CONTEXT then some (s, [])
      else some ({ s with packetMetadata := ev.metadata, addMetadata := true }, [])
    else
      if ev.fragment.length > MAX_PACKET_SIZE - s.auxFragBuf.length then
        some (s, [])
      else
        if (ev.keyword &&& KW_PACKET_END) ≠ 0 then
          some (⟨[], zeroMeta, false⟩, [emitPacket s ev ifIdx])
        else
          some ({ s with auxFragBuf := s.auxFragBuf ++ ev.fragment }, [])

/-- Folding `pass2Step` over an event list, collecting emitted packets
(`none` propagates the fatal exit). -/
def pass2Run (lookup : Nat → Option Nat) (s : Pass2State) :
    List Event → Option (Pass2State × List Packet)
  | [] => some (s, [])
  | ev :: evs =>
    (pass2Step lookup s ev).bind fun sp =>
      (pass2Run lookup sp.1 evs).map fun sq => (sq.1, sp.2 ++ sq.2)

/-! ## Ordering theory for the finalized interface list -/

/-- The ordering the specification claims for the finalized list: primary
key ascending `miniportIfIndex`; inside a group with equal
`miniportIfIndex` the miniport itself (`lowerIfIndex = miniportIfIndex`)
comes first and the rest ascend by `lowerIfIndex`. -/
def ifaceOrder (a b : Interface) : Prop :=
  a.miniportIfIndex < b.miniportIfIndex ∨
    (a.miniportIfIndex = b.miniportIfIndex ∧
      (a.lowerIfIndex = a.miniportIfIndex ∨
        (b.lowerIfIndex ≠ b.miniportIfIndex ∧ a.lowerIfIndex < b.lowerIfIndex)))

/-- Arithmetic characterization of the comparator-induced `≤`. -/
theorem cmpLe_iff (a b : Interface) :
    cmpLe a b ↔
      (a.miniportIfIndex < b.miniportIfIndex ∨
        (a.miniportIfIndex = b.miniportIfIndex ∧
          (a.miniportIfIndex = a.lowerIfIndex ∨
            (b.miniportIfIndex ≠ b.lowerIfIndex ∧
              a.lowerIfIndex ≤ b.lowerIfIndex)))) := by
  unfold cmpLe InterfaceCompareFn
  split_ifs <;> omega

instance : IsTotal Interface cmpLe :=
  ⟨by
    intro a b
    rw [cmpLe_iff, cmpLe_iff]
    omega⟩

instance : IsTrans Interface cmpLe :=
  ⟨by
    intro a b c hab hbc
    rw [cmpLe_iff] at hab hbc ⊢
    omega⟩

theorem cmpLe_of_ne_order {a b : Interface} (h : cmpLe a b)
    (hne : a.lowerIfIndex ≠ b.lowerIfIndex) : ifaceOrder a b := by
  rw [cmpLe_iff] at h
  unfold ifaceOrder
  omega

theorem mem_assignIndices {x : Interface} {i : Nat} {l : List Interface}
    (hx : x ∈ assignIndices i l) :
    ∃ y ∈ l, x.lowerIfIndex = y.lowerIfIndex ∧
      x.miniportIfIndex = y.miniportIfIndex := by
  induction l generalizing i with
  | nil => simp [assignIndices] at hx
  | cons z zs ih =>
      simp only [assignIndices, List.mem_cons] at hx
      rcases hx with rfl | hx
      · exact ⟨z, by simp, rfl, rfl⟩
      · obtain ⟨y, hy, h1, h2⟩ := ih hx
        exact ⟨y, by simp [hy], h1, h2⟩

theorem pairwise_assignIndices {i : Nat} {l : List Interface}
    (h : l.Pairwise ifaceOrder) : (assignIndices i l).Pairwise ifaceOrder := by
  induction l generalizing i with
  | nil => simp [assignIndices]
  | cons z zs ih =>
      rcases List.pairwise_cons.mp h with ⟨hz, hzs⟩
      refine List.pairwise_cons.mpr ⟨?_, ih hzs⟩
      intro y hy
      obtain ⟨y0, hy0, hl, hm⟩ := mem_assignIndices hy
      have h0 := hz y0 hy0
      unfold ifaceOrder at h0 ⊢
      dsimp only
      omega

theorem assignIndices_get (l : List Interface) :
    ∀ i k (h : k < (assignIndices i l).length),
      ((assignIndices i l).get ⟨k, h⟩).pcapNgIfIndex = i + k := by
  induction l with
  | nil => intro i k h; simp [assignIndices] at h
  | cons z zs ih =>
      intro i k h
      cases k with
      | zero => rfl
      | succ k =>
          have hlen : k < (assignIndices (i + 1) zs).length := by
            simpa [assignIndices] using Nat.lt_of_succ_lt_succ
              (by simpa [assignIndices] using h)
          exact (ih (i + 1) k hlen).trans (by omega)

/-- The data of an interface other than the output index assigned at
finalization. -/
def ifaceKey (x : Interface) : Nat × Nat × Nat :=
  (x.lowerIfIndex, x.miniportIfIndex, x.type)

theorem assignIndices_map_key (i : Nat) (l : List Interface) :
    (assignIndices i l).map ifaceKey = l.map ifaceKey := by
  induction l generalizing i with
  | nil => rfl
  | cons z zs ih => simp [assignIndices, ifaceKey, ih]

/-- Claim C1: for every set of registered interfaces (distinct
`lowerIfIndex` values), the finalized list is a rearrangement of the input
whose order is grouped by ascending `miniportIfIndex`, with the entry
having `lowerIfIndex = miniportIfIndex` first in its group and the rest of
each group ascending by `lowerIfIndex`, and `pcapNgIfIndex` 0..n-1 is
assigned in exactly that order. -/
theorem finalizeInterfaces_order (l : List Interface)
    (hd : (l.map Interface.lowerIfIndex).Nodup) :
    ((finalizeInterfaces l).map ifaceKey).Perm (l.map ifaceKey) ∧
    (finalizeInterfaces l).Pairwise ifaceOrder ∧
    ∀ k (h : k < (finalizeInterfaces l).length),
      ((finalizeInterfaces l).get ⟨k, h⟩).pcapNgIfIndex = k := by
  refine ⟨?_, ?_, ?_⟩
  · rw [finalizeInterfaces, assignIndices_map_key]
    exact (List.perm_insertionSort cmpLe l).map ifaceKey
  · have hs : (List.insertionSort cmpLe l).Pairwise cmpLe :=
      List.sorted_insertionSort cmpLe l
    have hperm := List.perm_insertionSort cmpLe l
    have hnd : ((List.insertionSort cmpLe l).map Interface.lowerIfIndex).Nodup :=
      ((hperm.map Interface.lowerIfIndex).symm).nodup hd
    have hne : (List.insertionSort cmpLe l).Pairwise
        (fun a b => a.lowerIfIndex ≠ b.lowerIfIndex) := List.pairwise_map.mp hnd
    have hcomb := List.pairwise_and_iff.mpr ⟨hs, hne⟩
    exact pairwise_assignIndices
      (hcomb.imp (fun hab => cmpLe_of_ne_order hab.1 hab.2))
  · intro k h
    have hk : k < (assignIndices 0 (List.insertionSort cmpLe l)).length := by
      simpa [finalizeInterfaces] using h
    have := assignIndices_get (List.insertionSort cmpLe l) 0 k hk
    simpa [finalizeInterfaces] using this

/-- Witness for C1: the hypotheses hold at the concrete three-interface
registry of the end-to-end scenario. -/
theorem finalizeInterfaces_order_witness :
    (finalizeInterfaces [⟨7, 5, 0, 1⟩, ⟨5, 5, 0, 1⟩, ⟨3, 3, 0, 1⟩]).Pairwise
      ifaceOrder :=
  (finalizeInterfaces_order [⟨7, 5, 0, 1⟩, ⟨5, 5, 0, 1⟩, ⟨3, 3, 0, 1⟩]
    (by decide)).2.1

/-- Claim C4 counterexample: with interfaces (lowerIfIndex 7, miniport 5),
(5, 5), (3, 3) registered in the spec's discovery order, the finalized
order of `lowerIfIndex` is [3, 5, 7] — the miniport-3 group sorts before
the miniport-5 group — not [5, 7, 3] as claimed. -/
theorem finalizeInterfaces_c4_counterexample :
    (finalizeInterfaces [⟨7, 5, 0, 1⟩, ⟨5, 5, 0, 1⟩, ⟨3, 3, 0, 1⟩]).map
        Interface.lowerIfIndex = [3, 5, 7] ∧
    (finalizeInterfaces [⟨7, 5, 0, 1⟩, ⟨5, 5, 0, 1⟩, ⟨3, 3, 0, 1⟩]).map
        Interface.lowerIfIndex ≠ [5, 7, 3] := by
  decide

/-- Claim C4 as amended: for all six discovery orders of the interfaces
(lowerIfIndex 7, miniport 5), (5, 5), (3, 3), the finalized order is
[lowerIfIndex 3, lowerIfIndex 5, lowerIfIndex 7] with output indices
0, 1, 2: ascending miniport group (3 before 5), and inside the miniport-5
group the miniport (5) before the layered interface (7). -/
theorem finalizeInterfaces_c4_amended :
    (∀ l ∈ ([[⟨7, 5, 0, 1⟩, ⟨5, 5, 0, 1⟩, ⟨3, 3, 0, 1⟩],
             [⟨7, 5, 0, 1⟩, ⟨3, 3, 0, 1⟩, ⟨5, 5, 0, 1⟩],
             [⟨5, 5, 0, 1⟩, ⟨7, 5, 0, 1⟩, ⟨3, 3, 0, 1⟩],
             [⟨5, 5, 0, 1⟩, ⟨3, 3, 0, 1⟩, ⟨7, 5, 0, 1⟩],
             [⟨3, 3, 0, 1⟩, ⟨7, 5, 0, 1⟩, ⟨5, 5, 0, 1⟩],
             [⟨3, 3, 0, 1⟩, ⟨5, 5, 0, 1⟩, ⟨7, 5, 0, 1⟩]] : List (List Interface)),
      (finalizeInterfaces l).map Interface.lowerIfIndex = [3, 5, 7] ∧
      (finalizeInterfaces l).map Interface.pcapNgIfIndex = [0, 1, 2]) := by
  decide

/-- Witness for the amended C4: the spec's own discovery order is one of
the six permutations. -/
theorem finalizeInterfaces_c4_amended_witness :
    (finalizeInterfaces [⟨7, 5, 0, 1⟩, ⟨5, 5, 0, 1⟩, ⟨3, 3, 0, 1⟩]).map
        Interface.lowerIfIndex = [3, 5, 7] ∧
    (finalizeInterfaces [⟨7, 5, 0, 1⟩, ⟨5, 5, 0, 1⟩, ⟨3, 3, 0, 1⟩]).map
        Interface.pcapNgIfIndex = [0, 1, 2] :=
  finalizeInterfaces_c4_amended [⟨7, 5, 0, 1⟩, ⟨5, 5, 0, 1⟩, ⟨3, 3, 0, 1⟩]
    (by decide)

/-! ## Step characterization lemmas -/

theorem pass2Step_metadata {lookup : Nat → Option Nat} {s : Pass2State}
    {ev : Event} {ifIdx : Nat}
    (hrel : relevantEvent ev = true)
    (hlk : lookup ev.lowerIfIndex = some ifIdx)
    (hid : ev.id = tidPacketMetadata)
    (hsz : ev.metadataSize = sizeof_DOT11_EXTSTA_RECV_CONTEXT) :
    pass2Step lookup s ev =
      some ({ s with packetMetadata := ev.metadata, addMetadata := true }, []) := by
  simp [pass2Step, hrel, hlk, hid, hsz]

theorem pass2Step_frag_cont {lookup : Nat → Option Nat} {s : Pass2State}
    {ev : Event} {ifIdx : Nat}
    (hrel : relevantEvent ev = true)
    (hlk : lookup ev.lowerIfIndex = some ifIdx)
    (hid : ev.id ≠ tidPacketMetadata)
    (hfit : ev.fragment.length ≤ MAX_PACKET_SIZE - s.auxFragBuf.length)
    (hend : (ev.keyword &&& KW_PACKET_END) = 0) :
    pass2Step lookup s ev =
      some ({ s with auxFragBuf := s.auxFragBuf ++ ev.fragment }, []) := by
  simp [pass2Step, hrel, hlk, hid, hend, Nat.not_lt.mpr hfit]

theorem pass2Step_frag_end {lookup : Nat → Option Nat} {s : Pass2State}
    {ev : Event} {ifIdx : Nat}
    (hrel : relevantEvent ev = true)
    (hlk : lookup ev.lowerIfIndex = some ifIdx)
    (hid : ev.id ≠ tidPacketMetadata)
    (hfit : ev.fragment.length ≤ MAX_PACKET_SIZE - s.auxFragBuf.length)
    (hend : (ev.keyword &&& KW_PACKET_END) ≠ 0) :
    pass2Step lookup s ev = some (⟨[], zeroMeta, false⟩, [emitPacket s ev ifIdx]) := by
  simp [pass2Step, hrel, hlk, hid, hend, Nat.not_lt.mpr hfit]

theorem pass2Step_frag_overflow {lookup : Nat → Option Nat} {s : Pass2State}
    {ev : Event} {ifIdx : Nat}
    (hrel : relevantEvent ev = true)
    (hlk : lookup ev.lowerIfIndex = some ifIdx)
    (hid : ev.id ≠ tidPacketMetadata)
    (hover : ev.fragment.length > MAX_PACKET_SIZE - s.auxFragBuf.length) :
    pass2Step lookup s ev = some (s, []) := by
  simp [pass2Step, hrel, hlk, hid, hover]

theorem clearProtectedBit_length (l : List Nat) :
    (clearProtectedBit l).length = l.length := by
  unfold clearProtectedBit
  match l with
  | [] => rfl
  | [b0] => rfl
  | b0 :: b1 :: rest => dsimp only; split <;> simp

theorem emitPacket_ts (s : Pass2State) (ev : Event) (ifIdx : Nat) :
    (emitPacket s ev ifIdx).tsHigh = winTicksToUsec ev.timeStamp / 2 ^ 32 ∧
    (emitPacket s ev ifIdx).tsLow = winTicksToUsec ev.timeStamp % 2 ^ 32 := by
  unfold emitPacket
  by_cases h : s.addMetadata <;> simp [h]

theorem emitPacket_payload (s : Pass2State) (ev : Event) (ifIdx : Nat) :
    (emitPacket s ev ifIdx).payload =
      (if (ev.keyword &&& KW_MEDIA_NATIVE_802_11) ≠ 0 then
        clearProtectedBit (s.auxFragBuf ++ ev.fragment)
      else s.auxFragBuf ++ ev.fragment) := by
  unfold emitPacket
  by_cases h : s.addMetadata <;> simp [h]

theorem emitPacket_length (s : Pass2State) (ev : Event) (ifIdx : Nat) :
    (emitPacket s ev ifIdx).length =
      (if s.addMetadata then
        sizeof_DOT11_EXTSTA_RECV_CONTEXT + (s.auxFragBuf ++ ev.fragment).length
      else (s.auxFragBuf ++ ev.fragment).length) := by
  unfold emitPacket
  by_cases h : s.addMetadata <;> simp [h]

theorem emitPacket_comment (s : Pass2State) (ev : Event) (ifIdx : Nat) :
    (emitPacket s ev ifIdx).comment =
      (if s.addMetadata then metadataComment s.packetMetadata ev.processId
      else some (pidComment ev.processId)) := by
  unfold emitPacket
  by_cases h : s.addMetadata <;> simp [h]

/-! ## Concrete sample inputs used by witnesses and counterexamples -/

/-- A one-interface registry view: every `LowerIfIndex` maps to output 0. -/
def sampleLookup : Nat → Option Nat := fun n => if n = 4 then some 0 else none

/-- A single-fragment frame-end event: one byte, timestamp one second past
the 1970 epoch, process id 7. -/
def endFragEvent : Event :=
  ⟨true, 1001, 0x80000000, 4, 4, 116444736010000000, 7, 0, zeroMeta, [5]⟩

/-- A single-fragment native-802.11 frame-end event whose payload byte 1 is
0xC0, timestamp exactly the 1970 epoch. -/
def wifiEndEvent : Event :=
  ⟨true, 1001, 0x80010000, 4, 4, 116444736000000000, 7, 0, zeroMeta, [0, 0xC0]⟩

/-- A well-formed metadata event (declared size 48). -/
def metaEvent : Event :=
  ⟨true, 1002, 0x200000000, 4, 4, 0, 9, 48, ⟨0x12, 7, 36, 1, -40, 24⟩, []⟩

/-! ## Claim C3 -/

/-- Pass-2 state with 60000 bytes already accumulated (offset 60000). -/
def bigState : Pass2State := ⟨List.replicate 60000 0, zeroMeta, false⟩

/-- A 10000-byte fragment event (no frame-end keyword). -/
def bigFragEvent : Event :=
  ⟨true, 1001, 0, 4, 4, 0, 0, 0, zeroMeta, List.replicate 10000 0⟩

/-- Pass-2 state whose buffer is completely full (offset 65535). -/
def fullState : Pass2State := ⟨List.replicate 65535 0, zeroMeta, false⟩

/-- A one-byte fragment event (no frame-end keyword). -/
def oneByteFragEvent : Event := ⟨true, 1001, 0, 4, 4, 0, 0, 0, zeroMeta, [0]⟩

/-- Claim C3 counterexample: with 60000 bytes pending and a 10000-byte
fragment arriving, the append is rejected but the fill offset stays 60000 —
the pending buffer is not discarded, contradicting the claimed reset to 0. -/
theorem pass2Step_c3_counterexample :
    pass2Step sampleLookup bigState bigFragEvent = some (bigState, []) ∧
    bigState.auxFragBuf.length = 60000 ∧ (60000 : Nat) ≠ 0 := by
  have hbuf : bigState.auxFragBuf = List.replicate 60000 0 := rfl
  have hfrag : bigFragEvent.fragment = List.replicate 10000 0 := rfl
  have hlen : bigState.auxFragBuf.length = 60000 := by
    rw [hbuf, List.length_replicate]
  have hflen : bigFragEvent.fragment.length = 10000 := by
    rw [hfrag, List.length_replicate]
  have hid : bigFragEvent.id = 1001 := rfl
  have htid : tidPacketMetadata = 1002 := rfl
  have hmax : MAX_PACKET_SIZE = 65535 := rfl
  refine ⟨@pass2Step_frag_overflow sampleLookup bigState bigFragEvent 0
    rfl rfl (by omega) (by omega), hlen, by omega⟩

/-- Claim C3 as amended: a fragment append that would exceed the 65535-byte
capacity is rejected without crashing — the event is skipped, no packet is
emitted — but the buffer offset is left unchanged (the pending bytes are
not discarded). -/
theorem pass2Step_c3_amended {lookup : Nat → Option Nat} {s : Pass2State}
    {ev : Event} {ifIdx : Nat}
    (hrel : relevantEvent ev = true)
    (hlk : lookup ev.lowerIfIndex = some ifIdx)
    (hid : ev.id ≠ tidPacketMetadata)
    (hbuf : s.auxFragBuf.length ≤ MAX_PACKET_SIZE)
    (hover : s.auxFragBuf.length + ev.fragment.length > MAX_PACKET_SIZE) :
    pass2Step lookup s ev = some (s, []) :=
  pass2Step_frag_overflow hrel hlk hid (by omega)

/-- Witness for the amended C3: a full buffer plus a one-byte fragment. -/
theorem pass2Step_c3_amended_witness :
    pass2Step sampleLookup fullState oneByteFragEvent = some (fullState, []) := by
  have hbuf : fullState.auxFragBuf = List.replicate 65535 0 := rfl
  have hlen : fullState.auxFragBuf.length = 65535 := by
    rw [hbuf, List.length_replicate]
  have hflen : oneByteFragEvent.fragment.length = 1 := rfl
  have hid : oneByteFragEvent.id = 1001 := rfl
  have htid : tidPacketMetadata = 1002 := rfl
  have hmax : MAX_PACKET_SIZE = 65535 := rfl
  exact pass2Step_c3_amended rfl rfl (by omega) (by omega) (by omega)

/-! ## Claim C5 -/

/-- Claim C5: on a frame-end emission, a native-802.11 frame has the
Protected bit (0x40) of payload byte index 1 cleared (0xC0 at index 1
becomes 0x80), while an Ethernet or RawIp frame (no native-802.11 keyword)
is emitted with its payload unchanged. -/
theorem pass2Step_c5 {lookup : Nat → Option Nat} {s : Pass2State}
    {ev : Event} {ifIdx : Nat}
    (hrel : relevantEvent ev = true)
    (hlk : lookup ev.lowerIfIndex = some ifIdx)
    (hid : ev.id ≠ tidPacketMetadata)
    (hfit : ev.fragment.length ≤ MAX_PACKET_SIZE - s.auxFragBuf.length)
    (hend : (ev.keyword &&& KW_PACKET_END) ≠ 0) :
    pass2Step lookup s ev = some (⟨[], zeroMeta, false⟩, [emitPacket s ev ifIdx]) ∧
    ((ev.keyword &&& KW_MEDIA_NATIVE_802_11) = 0 →
      (emitPacket s ev ifIdx).payload = s.auxFragBuf ++ ev.fragment) ∧
    ((ev.keyword &&& KW_MEDIA_NATIVE_802_11) ≠ 0 →
      (emitPacket s ev ifIdx).payload = clearProtectedBit (s.auxFragBuf ++ ev.fragment)) ∧
    (∀ l : List Nat, ((clearProtectedBit l).get? 1).map (fun b => b &&& 0x40) =
      (l.get? 1).map (fun _ => (0 : Nat))) ∧
    (∀ b0 rest, clearProtectedBit (b0 :: 0xC0 :: rest) = b0 :: 0x80 :: rest) := by
  refine ⟨pass2Step_frag_end hrel hlk hid hfit hend, ?_, ?_, ?_, ?_⟩
  · intro hw
    rw [emitPacket_payload, if_neg (by simp [hw])]
  · intro hw
    rw [emitPacket_payload, if_pos hw]
  · intro l
    match l with
    | [] => rfl
    | [b0] => rfl
    | b0 :: b1 :: rest =>
        unfold clearProtectedBit
        dsimp only
        by_cases hb : b1 &&& 0x40 ≠ 0
        · rw [if_pos hb]
          show some ((b1 &&& 0xBF) &&& 0x40) = some 0
          rw [Nat.land_assoc, show (0xBF &&& 0x40 : Nat) = 0 from by decide]
          simp
        · rw [if_neg hb]
          push_neg at hb
          show some (b1 &&& 0x40) = some 0
          rw [hb]
  · intro b0 rest
    unfold clearProtectedBit
    dsimp only
    rw [if_pos (show (0xC0 &&& 0x40 : Nat) ≠ 0 from by decide),
      show (0xC0 &&& 0xBF : Nat) = 0x80 from by decide]

/-- Witness for C5 at a concrete Wifi single-fragment frame whose byte 1
is 0xC0. -/
theorem pass2Step_c5_witness :
    pass2Step sampleLookup initialPass2State wifiEndEvent =
      some (⟨[], zeroMeta, false⟩, [emitPacket initialPass2State wifiEndEvent 0]) :=
  (@pass2Step_c5 sampleLookup initialPass2State wifiEndEvent 0
    rfl rfl (by decide) (by decide) (by decide)).1

/-! ## Claims C7 and C8 -/

/-- Claim C7: for every emitted packet, the 64-bit timestamp handed to the
writer (the two 32-bit words recombined) equals the event's 100ns tick
count divided by 10 minus 11644473600000000; and the tick count
116444736000000000 converts to exactly 0 microseconds. The hypotheses
`hticks`/`hepoch` say the tick count fits a signed 64-bit value and does
not predate the 1970 epoch, as for every timestamp the provider emits. -/
theorem pass2Step_c7 {lookup : Nat → Option Nat} {s : Pass2State}
    {ev : Event} {ifIdx : Nat}
    (hrel : relevantEvent ev = true)
    (hlk : lookup ev.lowerIfIndex = some ifIdx)
    (hid : ev.id ≠ tidPacketMetadata)
    (hfit : ev.fragment.length ≤ MAX_PACKET_SIZE - s.auxFragBuf.length)
    (hend : (ev.keyword &&& KW_PACKET_END) ≠ 0)
    (hticks : ev.timeStamp < 2 ^ 63)
    (hepoch : 11644473600000000 ≤ ev.timeStamp / 10) :
    pass2Step lookup s ev = some (⟨[], zeroMeta, false⟩, [emitPacket s ev ifIdx]) ∧
    ((emitPacket s ev ifIdx).tsHigh * 2 ^ 32 + (emitPacket s ev ifIdx).tsLow : Int) =
      ((ev.timeStamp / 10 : Nat) : Int) - 11644473600000000 ∧
    winTicksToUsec 116444736000000000 = 0 := by
  refine ⟨pass2Step_frag_end hrel hlk hid hfit hend, ?_, by decide⟩
  obtain ⟨h1, h2⟩ := emitPacket_ts s ev ifIdx
  rw [h1, h2]
  have husec : (winTicksToUsec ev.timeStamp : Int) =
      ((ev.timeStamp / 10 : Nat) : Int) - 11644473600000000 := by
    unfold winTicksToUsec
    omega
  omega

/-- Witness for C7 at a concrete frame-end event one second past the
epoch. -/
theorem pass2Step_c7_witness :
    ((emitPacket initialPass2State endFragEvent 0).tsHigh * 2 ^ 32 +
      (emitPacket initialPass2State endFragEvent 0).tsLow : Int) =
      ((116444736010000000 / 10 : Nat) : Int) - 11644473600000000 :=
  (@pass2Step_c7 sampleLookup initialPass2State endFragEvent 0
    rfl rfl (by decide) (by decide) (by decide) (by decide) (by decide)).2.1

/-- Claim C8 counterexample: for the concrete frame-end event one second
past the epoch (converted value 1000000 usec), the two timestamp words the
writer receives are (0, 1000000) — the upper and lower 32 bits — whereas
the claimed seconds/remainder split would be (1, 0). -/
theorem pass2Step_c8_counterexample :
    pass2Step sampleLookup initialPass2State endFragEvent =
      some (⟨[], zeroMeta, false⟩, [emitPacket initialPass2State endFragEvent 0]) ∧
    (emitPacket initialPass2State endFragEvent 0).tsHigh = 0 ∧
    (emitPacket initialPass2State endFragEvent 0).tsLow = 1000000 ∧
    winTicksToUsec endFragEvent.timeStamp / 1000000 = 1 ∧
    winTicksToUsec endFragEvent.timeStamp % 1000000 = 0 ∧
    (0 : Nat) ≠ 1 ∧ (1000000 : Nat) ≠ 0 := by
  refine ⟨?_, by decide, by decide, by decide, by decide, by decide, by decide⟩
  exact pass2Step_frag_end rfl rfl (by decide) (by decide) (by decide)

/-- Claim C8 as amended: the two timestamp arguments of the
enhanced-packet call are the upper and lower 32-bit halves of the 64-bit
microseconds-since-1970 value (`usec / 2^32` and `usec % 2^32`), not a
seconds/microseconds split. -/
theorem pass2Step_c8_amended {lookup : Nat → Option Nat} {s : Pass2State}
    {ev : Event} {ifIdx : Nat}
    (hrel : relevantEvent ev = true)
    (hlk : lookup ev.lowerIfIndex = some ifIdx)
    (hid : ev.id ≠ tidPacketMetadata)
    (hfit : ev.fragment.length ≤ MAX_PACKET_SIZE - s.auxFragBuf.length)
    (hend : (ev.keyword &&& KW_PACKET_END) ≠ 0) :
    pass2Step lookup s ev = some (⟨[], zeroMeta, false⟩, [emitPacket s ev ifIdx]) ∧
    (emitPacket s ev ifIdx).tsHigh = winTicksToUsec ev.timeStamp / 2 ^ 32 ∧
    (emitPacket s ev ifIdx).tsLow = winTicksToUsec ev.timeStamp % 2 ^ 32 :=
  ⟨pass2Step_frag_end hrel hlk hid hfit hend,
    (emitPacket_ts s ev ifIdx).1, (emitPacket_ts s ev ifIdx).2⟩

/-- Witness for the amended C8 at a concrete frame-end event. -/
theorem pass2Step_c8_amended_witness :
    (emitPacket initialPass2State wifiEndEvent 0).tsHigh =
      winTicksToUsec wifiEndEvent.timeStamp / 2 ^ 32 :=
  (@pass2Step_c8_amended sampleLookup initialPass2State wifiEndEvent 0
    rfl rfl (by decide) (by decide) (by decide)).2.1

/-! ## Claim C9 -/

/-- Claim C9: on a frame-end emission with a metadata record pending, the
length argument passed to the writer exceeds the number of payload bytes
actually accumulated by `sizeof(DOT11_EXTSTA_RECV_CONTEXT)`; with no
metadata pending it is exactly the accumulated byte count. -/
theorem pass2Step_c9 {lookup : Nat → Option Nat} {s : Pass2State}
    {ev : Event} {ifIdx : Nat}
    (hrel : relevantEvent ev = true)
    (hlk : lookup ev.lowerIfIndex = some ifIdx)
    (hid : ev.id ≠ tidPacketMetadata)
    (hfit : ev.fragment.length ≤ MAX_PACKET_SIZE - s.auxFragBuf.length)
    (hend : (ev.keyword &&& KW_PACKET_END) ≠ 0) :
    pass2Step lookup s ev = some (⟨[], zeroMeta, false⟩, [emitPacket s ev ifIdx]) ∧
    (emitPacket s ev ifIdx).payload.length =
      s.auxFragBuf.length + ev.fragment.length ∧
    (s.addMetadata = true →
      (emitPacket s ev ifIdx).length =
        (emitPacket s ev ifIdx).payload.length + sizeof_DOT11_EXTSTA_RECV_CONTEXT) ∧
    (s.addMetadata = false →
      (emitPacket s ev ifIdx).length = (emitPacket s ev ifIdx).payload.length) := by
  have hpl : (emitPacket s ev ifIdx).payload.length =
      s.auxFragBuf.length + ev.fragment.length := by
    rw [emitPacket_payload]
    by_cases hw : (ev.keyword &&& KW_MEDIA_NATIVE_802_11) ≠ 0
    · rw [if_pos hw, clearProtectedBit_length, List.length_append]
    · rw [if_neg hw, List.length_append]
  refine ⟨pass2Step_frag_end hrel hlk hid hfit hend, hpl, ?_, ?_⟩
  · intro h
    rw [emitPacket_length, if_pos h, hpl, List.length_append]
    omega
  · intro h
    rw [emitPacket_length, if_neg (by simp [h]), hpl, List.length_append]

/-- Witness for C9 at a state with pending metadata and a one-byte
frame-end fragment. -/
theorem pass2Step_c9_witness :
    (emitPacket ⟨[], ⟨0x12, 7, 36, 1, -40, 24⟩, true⟩ endFragEvent 0).length =
      (emitPacket ⟨[], ⟨0x12, 7, 36, 1, -40, 24⟩, true⟩ endFragEvent 0).payload.length +
        sizeof_DOT11_EXTSTA_RECV_CONTEXT :=
  (@pass2Step_c9 sampleLookup ⟨[], ⟨0x12, 7, 36, 1, -40, 24⟩, true⟩ endFragEvent 0
    rfl rfl (by decide) (by decide) (by decide)).2.2.1 rfl

/-! ## Claim C10 -/

theorem phyNames_get?_isSome (i : Nat) :
    (DOT11_PHY_TYPE_NAMES.get? i).isSome ↔ i ≤ 10 := by
  rw [Option.isSome_iff_ne_none]
  constructor
  · intro h
    by_contra hi
    exact h (List.get?_eq_none.mpr (by simp [DOT11_PHY_TYPE_NAMES]; omega))
  · intro h hnone
    have := List.get?_eq_none.mp hnone
    simp [DOT11_PHY_TYPE_NAMES] at this
    omega

/-- Claim C10: the phy-type name table has exactly 11 entries (indices
0..10); the comment formatter indexes it by the metadata record's `uPhyId`
with no bounds check, so the lookup lands inside the table exactly when
`uPhyId ≤ 10`, and for any larger `uPhyId` it reads outside the table (the
model has no defined value there). -/
theorem metadataComment_phy_bounds :
    DOT11_PHY_TYPE_NAMES.length = 11 ∧
    (∀ i, (DOT11_PHY_TYPE_NAMES.get? i).isSome ↔ i ≤ 10) ∧
    (∀ m pid, ((metadataComment m pid).isSome ↔ m.uPhyId ≤ 10)) := by
  refine ⟨rfl, phyNames_get?_isSome, ?_⟩
  intro m pid
  rw [metadataComment, Option.isSome_map']
  exact phyNames_get?_isSome m.uPhyId

/-! ## Claim C6 -/

/-- Claim C6: a valid metadata event stores its record in the single
pending slot, overwriting any unconsumed earlier record (the resulting
state does not depend on the previous slot content); a frame-end emission
with the slot full produces one packet whose comment is the formatted
metadata comment and clears the slot; a frame-end emission with the slot
empty produces one packet whose comment is the PID-only comment. -/
theorem pass2Step_c6 (lookup : Nat → Option Nat) :
    (∀ (s : Pass2State) (mev : Event) (ifIdx : Nat),
      relevantEvent mev = true →
      lookup mev.lowerIfIndex = some ifIdx →
      mev.id = tidPacketMetadata →
      mev.metadataSize = sizeof_DOT11_EXTSTA_RECV_CONTEXT →
      pass2Step lookup s mev =
        some ({ s with packetMetadata := mev.metadata, addMetadata := true }, [])) ∧
    (∀ (s : Pass2State) (fev : Event) (ifIdx : Nat),
      relevantEvent fev = true →
      lookup fev.lowerIfIndex = some ifIdx →
      fev.id ≠ tidPacketMetadata →
      fev.fragment.length ≤ MAX_PACKET_SIZE - s.auxFragBuf.length →
      (fev.keyword &&& KW_PACKET_END) ≠ 0 →
      s.addMetadata = true →
      pass2Step lookup s fev = some (⟨[], zeroMeta, false⟩, [emitPacket s fev ifIdx]) ∧
      (emitPacket s fev ifIdx).comment = metadataComment s.packetMetadata fev.processId) ∧
    (∀ (s : Pass2State) (fev : Event) (ifIdx : Nat),
      relevantEvent fev = true →
      lookup fev.lowerIfIndex = some ifIdx →
      fev.id ≠ tidPacketMetadata →
      fev.fragment.length ≤ MAX_PACKET_SIZE - s.auxFragBuf.length →
      (fev.keyword &&& KW_PACKET_END) ≠ 0 →
      s.addMetadata = false →
      pass2Step lookup s fev = some (⟨[], zeroMeta, false⟩, [emitPacket s fev ifIdx]) ∧
      (emitPacket s fev ifIdx).comment = some (pidComment fev.processId)) := by
  refine ⟨?_, ?_, ?_⟩
  · intro s mev ifIdx hrel hlk hid hsz
    exact pass2Step_metadata hrel hlk hid hsz
  · intro s fev ifIdx hrel hlk hid hfit hend hmeta
    refine ⟨pass2Step_frag_end hrel hlk hid hfit hend, ?_⟩
    rw [emitPacket_comment, if_pos hmeta]
  · intro s fev ifIdx hrel hlk hid hfit hend hmeta
    refine ⟨pass2Step_frag_end hrel hlk hid hfit hend, ?_⟩
    rw [emitPacket_comment, if_neg (by simp [hmeta])]

/-- Witness for C6: the concrete metadata event fills the slot of the
initial state. -/
theorem pass2Step_c6_witness :
    pass2Step sampleLookup initialPass2State metaEvent =
      some ({ initialPass2State with
        packetMetadata := metaEvent.metadata, addMetadata := true }, []) :=
  (pass2Step_c6 sampleLookup).1 initialPass2State metaEvent 0 rfl rfl rfl rfl

/-! ## Claim C2 -/

theorem pass2Run_accum (lookup : Nat → Option Nat) (L ifIdx : Nat)
    (hlk : lookup L = some ifIdx) :
    ∀ (evs : List Event) (s : Pass2State),
      (∀ ev ∈ evs, relevantEvent ev = true ∧ ev.id ≠ tidPacketMetadata ∧
        ev.lowerIfIndex = L ∧ (ev.keyword &&& KW_PACKET_END) = 0) →
      s.auxFragBuf.length + ((evs.map Event.fragment).join).length ≤ MAX_PACKET_SIZE →
      pass2Run lookup s evs =
        some ({ s with auxFragBuf := s.auxFragBuf ++ (evs.map Event.fragment).join }, []) := by
  intro evs
  induction evs with
  | nil => intro s h hlen; simp [pass2Run]
  | cons ev rest ih =>
      intro s h hlen
      obtain ⟨hrel, hid, hL, hend⟩ := h ev (by simp)
      have hrest : ∀ e ∈ rest, relevantEvent e = true ∧ e.id ≠ tidPacketMetadata ∧
          e.lowerIfIndex = L ∧ (e.keyword &&& KW_PACKET_END) = 0 :=
        fun e he => h e (by simp [he])
      have hlen0 : s.auxFragBuf.length + (ev.fragment.length +
          ((rest.map Event.fragment).join).length) ≤ MAX_PACKET_SIZE := by
        simpa using hlen
      have hfit : ev.fragment.length ≤ MAX_PACKET_SIZE - s.auxFragBuf.length := by
        omega
      have hstep := @pass2Step_frag_cont lookup s ev ifIdx hrel
        (by rw [hL]; exact hlk) hid hfit hend
      have hlen2 : ({ s with auxFragBuf := s.auxFragBuf ++ ev.fragment } :
          Pass2State).auxFragBuf.length +
          ((rest.map Event.fragment).join).length ≤ MAX_PACKET_SIZE := by
        simp only [List.length_append]
        omega
      have hrec := ih { s with auxFragBuf := s.auxFragBuf ++ ev.fragment } hrest hlen2
      simp only [pass2Run, hstep, Option.some_bind, hrec, Option.map_some']
      simp [List.append_assoc]

theorem pass2Run_snoc {lookup : Nat → Option Nat} {s s1 s2 : Pass2State}
    {ps qs : List Packet} {l : List Event} {last : Event}
    (h1 : pass2Run lookup s l = some (s1, ps))
    (h2 : pass2Step lookup s1 last = some (s2, qs)) :
    pass2Run lookup s (l ++ [last]) = some (s2, ps ++ qs) := by
  induction l generalizing s ps with
  | nil =>
      simp only [pass2Run, Option.some.injEq, Prod.mk.injEq] at h1
      obtain ⟨rfl, rfl⟩ := h1
      simp [pass2Run, h2]
  | cons e es ih =>
      rw [List.cons_append]
      simp only [pass2Run] at h1 ⊢
      cases hstep : pass2Step lookup s e with
      | none => rw [hstep] at h1; simp at h1
      | some p =>
          rw [hstep] at h1
          simp only [Option.some_bind] at h1
          simp only [Option.some_bind]
          cases hrun : pass2Run lookup p.1 es with
          | none => rw [hrun] at h1; simp at h1
          | some q =>
              rw [hrun] at h1
              simp only [Option.map_some', Option.some.injEq, Prod.mk.injEq] at h1
              obtain ⟨h1a, h1b⟩ := h1
              have hrun1 : pass2Run lookup p.1 es = some (s1, q.2) := by
                rw [hrun, ← h1a]
              rw [ih hrun1]
              simp only [Option.map_some', Option.some.injEq, Prod.mk.injEq]
              exact ⟨trivial, by rw [← h1b, List.append_assoc]⟩

/-- Claim C2 as amended: fragments delivered on one interface with only
the last event carrying the frame-end keyword, starting from an empty
buffer with the total within 65535 bytes, produce exactly one packet,
whose payload is the concatenation of the fragments — except that when the
final event carries the native-802.11 media keyword the Protected bit
(0x40) of byte index 1 of the concatenation is cleared. No packet is
emitted for the non-final fragments. -/
theorem pass2Run_c2_amended (lookup : Nat → Option Nat) (L ifIdx : Nat)
    (front : List Event) (last : Event) (s : Pass2State)
    (hlk : lookup L = some ifIdx)
    (hfront : ∀ ev ∈ front, relevantEvent ev = true ∧ ev.id ≠ tidPacketMetadata ∧
      ev.lowerIfIndex = L ∧ (ev.keyword &&& KW_PACKET_END) = 0)
    (hrel : relevantEvent last = true)
    (hid : last.id ≠ tidPacketMetadata)
    (hL : last.lowerIfIndex = L)
    (hend : (last.keyword &&& KW_PACKET_END) ≠ 0)
    (hbuf : s.auxFragBuf = [])
    (hfit : ((front.map Event.fragment).join).length + last.fragment.length ≤
      MAX_PACKET_SIZE) :
    pass2Run lookup s (front ++ [last]) =
      some (⟨[], zeroMeta, false⟩,
        [emitPacket { s with
          auxFragBuf := s.auxFragBuf ++ (front.map Event.fragment).join } last ifIdx]) ∧
    (emitPacket { s with
        auxFragBuf := s.auxFragBuf ++ (front.map Event.fragment).join } last ifIdx).payload =
      (if (last.keyword &&& KW_MEDIA_NATIVE_802_11) ≠ 0 then
        clearProtectedBit ((front.map Event.fragment).join ++ last.fragment)
      else (front.map Event.fragment).join ++ last.fragment) := by
  have hlen1 : s.auxFragBuf.length + ((front.map Event.fragment).join).length ≤
      MAX_PACKET_SIZE := by
    rw [hbuf]
    simp only [List.length_nil]
    omega
  have hacc := pass2Run_accum lookup L ifIdx hlk front s hfront hlen1
  have hfit2 : last.fragment.length ≤ MAX_PACKET_SIZE -
      ({ s with auxFragBuf := s.auxFragBuf ++ (front.map Event.fragment).join } :
        Pass2State).auxFragBuf.length := by
    simp only [List.length_append, hbuf, List.length_nil]
    omega
  have hstep := @pass2Step_frag_end lookup
    { s with auxFragBuf := s.auxFragBuf ++ (front.map Event.fragment).join } last ifIdx
    hrel (by rw [hL]; exact hlk) hid hfit2 hend
  refine ⟨pass2Run_snoc hacc hstep, ?_⟩
  rw [emitPacket_payload]
  simp [hbuf]

/-- Claim C2 counterexample: a single native-802.11 fragment event with
bytes [0x00, 0xC0] and the frame-end keyword yields one packet, but its
payload is [0x00, 0x80] (Protected bit cleared), not the concatenation
[0x00, 0xC0]. -/
theorem pass2Run_c2_counterexample :
    pass2Run sampleLookup initialPass2State [wifiEndEvent] =
      some (⟨[], zeroMeta, false⟩, [emitPacket initialPass2State wifiEndEvent 0]) ∧
    (emitPacket initialPass2State wifiEndEvent 0).payload = [0x00, 0x80] ∧
    wifiEndEvent.fragment = [0x00, 0xC0] ∧
    ([0x00, 0x80] : List Nat) ≠ [0x00, 0xC0] := by
  have hstep := @pass2Step_frag_end sampleLookup initialPass2State wifiEndEvent 0
    rfl rfl (by decide) (by decide) (by decide)
  refine ⟨?_, by decide, rfl, by decide⟩
  simp [pass2Run, hstep]

/-- Witness for the amended C2: two fragments [1, 2] and [3] on one
interface, the second carrying the frame-end keyword, no wireless keyword. -/
theorem pass2Run_c2_amended_witness :
    pass2Run sampleLookup initialPass2State
      [⟨true, 1001, 0, 4, 4, 0, 7, 0, zeroMeta, [1, 2]⟩,
       ⟨true, 1001, 0x80000000, 4, 4, 0, 7, 0, zeroMeta, [3]⟩] =
      some (⟨[], zeroMeta, false⟩,
        [emitPacket { initialPass2State with
            auxFragBuf := initialPass2State.auxFragBuf ++
              (([⟨true, 1001, 0, 4, 4, 0, 7, 0, zeroMeta, [1, 2]⟩] :
                List Event).map Event.fragment).join }
          ⟨true, 1001, 0x80000000, 4, 4, 0, 7, 0, zeroMeta, [3]⟩ 0]) :=
  (pass2Run_c2_amended sampleLookup 4 0
    [⟨true, 1001, 0, 4, 4, 0, 7, 0, zeroMeta, [1, 2]⟩]
    ⟨true, 1001, 0x80000000, 4, 4, 0, 7, 0, zeroMeta, [3]⟩
    initialPass2State rfl (by decide) rfl (by decide) rfl (by decide) rfl
    (by decide)).1
